import Mathlib

/-!
Verification development for the koa documentation-protocol compiler.

The TypeScript sources are shallowly embedded as executable Lean
definitions: the comment-tag parser helpers (`parseParam`,
`parseResponse`, `parseBody`, `handleKoaRouter`), the per-file scanner
(`scanCalls`, `documentSourceFile`), the router-level documentation
parser (`parseRouterDoc`), the example synthesizer
(`createSchemaExample`), and the API-blueprint emitter (`formatPath`,
`emitRoute`, `emitGroup`).  External collaborators (the TypeScript
checker, the typescript-json-schema generator, comment-parser, Node
string/path builtins) are modelled by small faithful functions or by
finite maps supplied as inputs.
-/

namespace KoaDoc

/-- JavaScript whitespace as matched by the regexp class backslash-s and
trimmed by String.prototype.trim (the common ASCII subset). -/
def jsWhitespaceChar (c : Char) : Bool :=
  c == ' ' || c == '\t' || c == '\n' || c == '\r' || c == '\x0b' || c == '\x0c'

/-- Models JavaScript String.prototype.trim. -/
def jsTrim (s : String) : String :=
  ⟨((s.data.dropWhile jsWhitespaceChar).reverse.dropWhile jsWhitespaceChar).reverse⟩


/-- List-backed model of the JavaScript includes test for one character
(String.prototype.includes with a one-character needle). -/
def strContains (s : String) (c : Char) : Bool := s.data.contains c

/-- Models JavaScript String.prototype.split with a one-character
separator: the list of (possibly empty) chunks between separators,
never empty. -/
def splitChar (sep : Char) : List Char → List (List Char)
  | [] => [[]]
  | c :: rest =>
    if c = sep then [] :: splitChar sep rest
    else
      match splitChar sep rest with
      | [] => [[c]]
      | l :: ls => (c :: l) :: ls

/-- Models Array.prototype.join with the given separator. -/
def joinSep (sep : String) : List String → String
  | [] => ""
  | [x] => x
  | x :: rest => x ++ sep ++ joinSep sep rest

/-- Upper-cases one ASCII letter, models the effect of
String.prototype.toUpperCase on the characters HTTP verbs use. -/
def upperChar (c : Char) : Char :=
  if 'a' ≤ c ∧ c ≤ 'z' then Char.ofNat (c.toNat - 32) else c

/-- Models String.prototype.toUpperCase on ASCII text. -/
def asciiUpper (s : String) : String := ⟨s.data.map upperChar⟩

/-- Splits a character list at the first newline: the part before it and,
when a newline exists, the remainder after it. -/
def splitAtFirstNl : List Char → List Char × Option (List Char)
  | [] => ([], none)
  | c :: rest =>
    if c = '\n' then ([], some rest)
    else
      let (a, r) := splitAtFirstNl rest
      (c :: a, r)

/-- Models the splitByFirstNewline helper of the scanner: `str.indexOf`
of a newline, returning the whole string and undefined when absent,
otherwise the text before and after the first newline. -/
def splitByFirstNewline (s : String) : String × Option String :=
  let (a, r) := splitAtFirstNl s.data
  (⟨a⟩, r.map fun l => ⟨l⟩)

/-- Value of a decimal digit character, none otherwise. -/
def digitVal (c : Char) : Option Nat :=
  if '0' ≤ c ∧ c ≤ '9' then some (c.toNat - '0'.toNat) else none

/-- Value of a hexadecimal digit character, none otherwise. -/
def hexVal (c : Char) : Option Nat :=
  if '0' ≤ c ∧ c ≤ '9' then some (c.toNat - '0'.toNat)
  else if 'a' ≤ c ∧ c ≤ 'f' then some (c.toNat - 'a'.toNat + 10)
  else if 'A' ≤ c ∧ c ≤ 'F' then some (c.toNat - 'A'.toNat + 10)
  else none

/-- Reads a maximal run of digits in the given base, accumulating a value;
stops at the first non-digit, like JavaScript parseInt does. -/
def parseDigitsGo (val : Char → Option Nat) (base : Nat) (acc : Nat) : List Char → Nat
  | [] => acc
  | c :: rest =>
    match val c with
    | some d => parseDigitsGo val base (acc * base + d) rest
    | none => acc

/-- Models JavaScript parseInt with no radix argument: skip leading
whitespace, read an optional sign, then either a 0x-prefixed hexadecimal
digit run or a decimal digit run; none models NaN (no digit found). -/
def jsParseInt (s : String) : Option Int :=
  let l₀ := s.data.dropWhile jsWhitespaceChar
  let sl : Int × List Char :=
    match l₀ with
    | '-' :: r => (-1, r)
    | '+' :: r => (1, r)
    | _ => (1, l₀)
  match sl.2 with
  | '0' :: 'x' :: r =>
    if (r.head?.bind hexVal).isSome then some (sl.1 * parseDigitsGo hexVal 16 0 r) else none
  | '0' :: 'X' :: r =>
    if (r.head?.bind hexVal).isSome then some (sl.1 * parseDigitsGo hexVal 16 0 r) else none
  | l =>
    if (l.head?.bind digitVal).isSome then some (sl.1 * parseDigitsGo digitVal 10 0 l) else none

/-- Models the regexp match in parseResponse
(`tag.source.match(new RegExp(responseCode + backslash-s-star-group))`):
finds the first occurrence of the needle in the haystack and returns the
maximal run of whitespace immediately following it; none when the needle
does not occur. -/
def wsAfterFirst (needle : List Char) : List Char → Option (List Char)
  | [] => if needle.isEmpty then some [] else none
  | c :: rest =>
    if needle.isPrefixOf (c :: rest) then
      some (((c :: rest).drop needle.length).takeWhile jsWhitespaceChar)
    else wsAfterFirst needle rest

/-- JSON values as produced by the example synthesizer and consumed by
json-stable-stringify. -/
inductive Json where
  | str (s : String)
  | num (n : Int)
  | bool (b : Bool)
  | arr (items : List Json)
  | obj (fields : List (String × Json))

/-- The `type` field of a typescript-json-schema Definition: absent, a
single kind string, or an array of kind strings. -/
inductive SType where
  | undef
  | str (s : String)
  | strs (l : List String)
deriving DecidableEq

/-- Model of a tjs.Definition restricted to the fields the compiler
reads: `type`, `properties`, `additionalProperties` and `items`.  The
JavaScript union fields are split: `addlBool`/`addlSchema` encode
`additionalProperties` being a boolean or a schema object (at most one is
set), and `itemsSingle`/`itemsTuple` encode `items` being one schema or
an array of schemas (at most one is set); `properties := []` encodes an
absent or empty properties map, which the compiler treats identically
(`schema.properties || {}`). -/
inductive Definition where
  | mk (type : SType)
       (properties : List (String × Definition))
       (addlBool : Option Bool)
       (addlSchema : Option Definition)
       (itemsSingle : Option Definition)
       (itemsTuple : Option (List Definition))

/-- The `defaults` block of the validated configuration. -/
structure ConfigDefaults where
  string : String
  number : Int
  boolean : Bool
  jsonKey : String

/-- The `examples` block of the validated configuration: the
response-context and param-context named override tables (the `all`
bucket is already copied into both by config loading, an external
collaborator). -/
structure Examples where
  response : List (String × Json)
  param : List (String × String)

/-- The validated configuration object, restricted to the fields the
core reads. -/
structure Config where
  defaults : ConfigDefaults
  examples : Examples

mutual
/-- Embedding of createSchemaExample from src/examples.ts: recursively
synthesizes an example JSON value for a schema, consulting the
response-context named-example table when a property name is supplied,
and the configured type defaults otherwise.  Errors model the thrown
exceptions (unexpected schema type, and reading `items` of undefined). -/
def createSchemaExample (schema : Definition) (config : Config) (name : Option String) : Except String Json :=
  match schema with
  | .mk type props _ addlSchema itemsSingle itemsTuple =>
    let t : Option String :=
      match type with
      | .str s => some s
      | .strs (s :: _) => some s
      | .strs [] => none
      | .undef => none
    match t with
    | some "object" =>
      (exampleFields props config).bind (fun fields =>
        match addlSchema with
        | some d =>
          (createSchemaExample d config none).bind (fun v =>
            .ok (.obj (fields ++ [(config.defaults.jsonKey, v)])))
        | none => .ok (.obj fields))
    | some "array" =>
      match name.bind (fun n => config.examples.response.lookup n) with
      | some v => .ok v
      | none =>
        match itemsTuple with
        | some ds => (exampleItems ds config).bind (fun vs => .ok (.arr vs))
        | none =>
          match itemsSingle with
          | some d => (createSchemaExample d config none).bind (fun v => .ok (.arr [v]))
          | none => .error "TypeError: cannot read type of undefined items"
    | some "number" =>
      match name.bind (fun n => config.examples.response.lookup n) with
      | some v => .ok v
      | none => .ok (.num config.defaults.number)
    | some "string" =>
      match name.bind (fun n => config.examples.response.lookup n) with
      | some v => .ok v
      | none => .ok (.str config.defaults.string)
    | some "boolean" =>
      match name.bind (fun n => config.examples.response.lookup n) with
      | some v => .ok v
      | none => .ok (.bool config.defaults.boolean)
    | _ => .error "Unexpected type in schema"
/-- Example synthesis for each declared property of an object schema, in
declaration order, passing each property name down for override lookup
(the reduce over Object.keys in the source); the bind spelling models
the exception propagation of the reduce callback. -/
def exampleFields (props : List (String × Definition)) (config : Config) : Except String (List (String × Json)) :=
  match props with
  | [] => .ok []
  | (p, d) :: rest =>
    (createSchemaExample d config (some p)).bind (fun v =>
      (exampleFields rest config).bind (fun vs => .ok ((p, v) :: vs)))
/-- Example synthesis for each member schema of a fixed-arity tuple
(the map over schema.items in the source). -/
def exampleItems (ds : List Definition) (config : Config) : Except String (List Json) :=
  match ds with
  | [] => .ok []
  | d :: rest =>
    (createSchemaExample d config none).bind (fun v =>
      (exampleItems rest config).bind (fun vs => .ok (v :: vs)))
end

/-- Lower-case hexadecimal digit character. -/
def hexDigitChar (n : Nat) : Char :=
  if n < 10 then Char.ofNat ('0'.toNat + n) else Char.ofNat ('a'.toNat + n - 10)

/-- Upper-case hexadecimal digit character (percent encoding uses these). -/
def hexDigitUpper (n : Nat) : Char :=
  if n < 10 then Char.ofNat ('0'.toNat + n) else Char.ofNat ('A'.toNat + n - 10)

/-- JSON string escaping as performed by JSON.stringify. -/
def escapeChar (c : Char) : List Char :=
  if c = '"' then ['\\', '"']
  else if c = '\\' then ['\\', '\\']
  else if c = '\n' then ['\\', 'n']
  else if c = '\t' then ['\\', 't']
  else if c = '\r' then ['\\', 'r']
  else if c.toNat < 32 then
    ['\\', 'u', '0', '0', hexDigitChar (c.toNat / 16), hexDigitChar (c.toNat % 16)]
  else [c]

/-- JSON-escapes every character of a string. -/
def escapeString (s : String) : String := ⟨s.data.flatMap escapeChar⟩

/-- Quoted, escaped JSON string literal. -/
def jsonQuote (s : String) : String := "\"" ++ escapeString s ++ "\""

/-- Inserts one field into a key-sorted field list, keeping it sorted. -/
def insertField (p : String × Json) : List (String × Json) → List (String × Json)
  | [] => [p]
  | q :: rest => if p.1 ≤ q.1 then p :: q :: rest else q :: insertField p rest

/-- Sorts object fields by key, as json-stable-stringify does. -/
def sortFields (fs : List (String × Json)) : List (String × Json) :=
  fs.foldr insertField []

mutual
/-- Recursively sorts the field lists of every object inside a JSON value
into lexical key order; rendering the result mirrors the deterministic
key ordering json-stable-stringify guarantees. -/
def sortJson : Json → Json
  | .str s => .str s
  | .num n => .num n
  | .bool b => .bool b
  | .arr items => .arr (sortItems items)
  | .obj fields => .obj (sortFields (sortJsonFields fields))
/-- Recursive key sorting inside each field of an object. -/
def sortJsonFields : List (String × Json) → List (String × Json)
  | [] => []
  | (k, v) :: rest => (k, sortJson v) :: sortJsonFields rest
/-- Recursive key sorting inside each item of an array. -/
def sortItems : List Json → List Json
  | [] => []
  | j :: rest => sortJson j :: sortItems rest
end

/-- Run of spaces used for pretty-printed JSON indentation. -/
def padding (n : Nat) : String := ⟨List.replicate n ' '⟩

mutual
/-- Pretty JSON rendering with a two-space indent, matching the layout of
JSON.stringify with the same space option (which json-stable-stringify
reproduces). -/
def renderJson (depth : Nat) : Json → String
  | .str s => jsonQuote s
  | .num n => toString n
  | .bool b => if b then "true" else "false"
  | .arr [] => "[]"
  | .arr (j :: js) =>
    "[\n" ++ renderItems (depth + 1) (j :: js) ++ "\n" ++ padding (2 * depth) ++ "]"
  | .obj [] => "\x7b\x7d"
  | .obj (f :: fs) =>
    "\x7b\n" ++ renderFields (depth + 1) (f :: fs) ++ "\n" ++ padding (2 * depth) ++ "\x7d"
/-- Pretty rendering of array items, comma separated, one per line. -/
def renderItems (depth : Nat) : List Json → String
  | [] => ""
  | [j] => padding (2 * depth) ++ renderJson depth j
  | j :: rest => padding (2 * depth) ++ renderJson depth j ++ ",\n" ++ renderItems depth rest
/-- Pretty rendering of object fields, comma separated, one per line. -/
def renderFields (depth : Nat) : List (String × Json) → String
  | [] => ""
  | [(k, v)] => padding (2 * depth) ++ jsonQuote k ++ ": " ++ renderJson depth v
  | (k, v) :: rest =>
    padding (2 * depth) ++ jsonQuote k ++ ": " ++ renderJson depth v ++ ",\n" ++ renderFields depth rest
end

/-- Models `stringify(value, space 2)` from json-stable-stringify: keys
sorted lexically, two-space indentation. -/
def stableStringify (j : Json) : String := renderJson 0 (sortJson j)

mutual
/-- Renders a modelled tjs.Definition back to the JSON object that
json-stable-stringify receives when the emitter prints a Schema section;
fields that are undefined in the TypeScript value are omitted. -/
def definitionToJson : Definition → Json
  | .mk type props addlBool addlSchema itemsSingle itemsTuple =>
    let typeFields : List (String × Json) :=
      match type with
      | .undef => []
      | .str s => [("type", .str s)]
      | .strs l => [("type", .arr (l.map Json.str))]
    let propFields : List (String × Json) :=
      match props with
      | [] => []
      | ps => [("properties", .obj (defnFieldsToJson ps))]
    let addlFields : List (String × Json) :=
      match addlSchema with
      | some d => [("additionalProperties", definitionToJson d)]
      | none =>
        match addlBool with
        | some b => [("additionalProperties", .bool b)]
        | none => []
    let itemFields : List (String × Json) :=
      match itemsTuple with
      | some ds => [("items", .arr (defnListToJson ds))]
      | none =>
        match itemsSingle with
        | some d => [("items", definitionToJson d)]
        | none => []
    .obj (typeFields ++ propFields ++ addlFields ++ itemFields)
/-- JSON rendering of each property schema of an object schema. -/
def defnFieldsToJson : List (String × Definition) → List (String × Json)
  | [] => []
  | (k, d) :: rest => (k, definitionToJson d) :: defnFieldsToJson rest
/-- JSON rendering of each member schema of a tuple items list. -/
def defnListToJson : List Definition → List Json
  | [] => []
  | d :: rest => definitionToJson d :: defnListToJson rest
end

mutual
/-- Embedding of formatPath from the emitter,
`path.replace` of the global regexp colon-then-nonslash-run by the run
wrapped in curly braces: scanning mode.  A colon followed by at least one
non-slash character starts a match, replaced by an opening brace, the
run, and a closing brace; any other character is copied. -/
def fmtScan : List Char → List Char
  | [] => []
  | c :: rest =>
    if c = ':' then
      match rest with
      | [] => [':']
      | d :: rest2 =>
        if d = '/' then ':' :: '/' :: fmtScan rest2
        else '{' :: d :: fmtSeg rest2
    else c :: fmtScan rest
/-- Inside a matched parameter segment: copies characters up to the next
slash or the end of the string, then emits the closing brace and resumes
scanning. -/
def fmtSeg : List Char → List Char
  | [] => ['}']
  | c :: rest =>
    if c = '/' then '}' :: '/' :: fmtScan rest
    else c :: fmtSeg rest
end

/-- Embedding of formatPath from src/emitter.ts: replaces every
koa-style `:param` path segment by the api-blueprint `\x7bparam\x7d` form. -/
def formatPath (s : String) : String := ⟨fmtScan s.data⟩

/-- Decides whether every maximal slash-free segment of the path contains
at most one colon; equivalently, no colon is followed by another colon
before the next slash.  The mode flag records whether a colon has been
seen in the current segment. -/
def okSeg (seen : Bool) : List Char → Bool
  | [] => true
  | c :: rest =>
    if c = '/' then okSeg false rest
    else if c = ':' then (if seen then false else okSeg true rest)
    else okSeg seen rest

/-- Paths on which the placeholder-conversion regexp finds the same
matches on a second pass: each slash-separated segment holds at most one
colon. -/
def okPath (s : String) : Bool := okSeg false s.data

/-- Decides that the conversion regexp has no match at all: every colon
is immediately followed by a slash or ends the string. -/
def noColonSeg : List Char → Bool
  | [] => true
  | c :: rest =>
    if c = ':' then
      match rest with
      | [] => true
      | d :: _ => (d == '/') && noColonSeg rest
    else noColonSeg rest

/-- Mark characters left unescaped by both encodeURI and
encodeURIComponent. -/
def uriMark : List Char := ['-', '_', '.', '!', '~', '*', Char.ofNat 39, '(', ')']

/-- Characters a URI encoder never escapes: ASCII alphanumerics and the
mark characters. -/
def isUnreservedUri (c : Char) : Bool := c.isAlphanum || uriMark.contains c

/-- Reserved characters that encodeURI (but not encodeURIComponent)
leaves unescaped. -/
def uriReserved : List Char := [';', '/', '?', ':', '@', '&', '=', '+', '$', ',', '#']

/-- UTF-8 byte sequence of a character, used for percent encoding. -/
def utf8Bytes (c : Char) : List Nat :=
  let n := c.toNat
  if n < 128 then [n]
  else if n < 2048 then [192 + n / 64, 128 + n % 64]
  else if n < 65536 then [224 + n / 4096, 128 + (n / 64) % 64, 128 + n % 64]
  else [240 + n / 262144, 128 + (n / 4096) % 64, 128 + (n / 64) % 64, 128 + n % 64]

/-- Percent-encodes one character unless the keep predicate holds. -/
def encodeChar (keep : Char → Bool) (c : Char) : List Char :=
  if keep c then [c]
  else (utf8Bytes c).flatMap (fun b => ['%', hexDigitUpper (b / 16), hexDigitUpper (b % 16)])

/-- Models the JavaScript global encodeURI. -/
def encodeURI (s : String) : String :=
  ⟨s.data.flatMap (encodeChar (fun c => isUnreservedUri c || uriReserved.contains c))⟩

/-- Models the JavaScript global encodeURIComponent. -/
def encodeURIComponent (s : String) : String :=
  ⟨s.data.flatMap (encodeChar isUnreservedUri)⟩

/-- One step of posix path normalization over already-split components. -/
def normStep (isAbs : Bool) (stack : List String) (part : String) : List String :=
  if part = "." then stack
  else if part = ".." then
    match stack with
    | [] => if isAbs then [] else [".."]
    | top :: rest => if top = ".." then part :: stack else rest
  else part :: stack

/-- Models Node path.join (posix) as used by emitRoute: concatenates the
two pieces with a slash and normalizes the result (collapsing repeated
slashes and resolving dot components). -/
def pathJoin (a b : String) : String :=
  let joined := if a = "" then b else if b = "" then a else a ++ "/" ++ b
  let isAbs := joined.data.head? == some '/'
  let parts := ((splitChar '/' joined.data).map (fun l => (⟨l⟩ : String))).filter (fun p => p != "")
  let stack := (parts.foldl (normStep isAbs) []).reverse
  let res := (if isAbs then "/" else "") ++ joinSep "/" stack
  if res = "" then "." else res

namespace Documentation

/-- Structure used for both url parameters and query parameters
(interface Documentation.Param in the source). -/
structure Param where
  query : Bool
  name : String
  type : String
  description : String
  «example» : String

/-- One possible response of a route (interface Documentation.Response);
the field named `when` in the source is embedded as `whenCond`, and the
`any`-typed body is a JSON value, a literal string being `Json.str`. -/
structure Response where
  code : Int
  whenCond : Option String
  type : Option String
  body : Option Json
  schema : Option Definition

/-- The parsed body tag of a route (interface Documentation.RequestBody). -/
structure RequestBody where
  type : Option String
  body : Option Json
  schema : Option Definition

/-- One documented route registration (interface Documentation.Block). -/
structure Block where
  method : String
  path : String
  title : String
  description : String
  params : List Param
  responses : List Response
  body : Option RequestBody

/-- Routes sharing one path, grouped (interface Documentation.Group). -/
structure Group where
  path : String
  methods : List Block

/-- One routing-object binding with its routes (interface
Documentation.Router). -/
structure Router where
  path : String
  title : String
  description : Option String
  routes : List Group

end Documentation

/-- A parsed comment tag as comment-parser returns it: the tag keyword,
the bracketed type (empty string when absent), the name slot, the
description text (continuation lines joined by newlines, the leading
newline trimmed), the zero-based line offset of the tag inside the
comment block, and the raw source text of the tag. -/
structure Tag where
  tag : String
  type : String
  name : String
  description : String
  line : Nat
  source : String

/-- A position in a scanned file, used for diagnostics. -/
structure Position where
  line : Nat
  sourceFile : String

/-- One reported diagnostic: source file, line and message. -/
structure Diag where
  sourceFile : String
  line : Nat
  message : String
deriving DecidableEq

/-- Models the typescript-json-schema generator as a finite map from
type names to schemas; a missing name models the exception
getSchemaForSymbol throws for an unresolvable type. -/
def Generator := List (String × Definition)

/-- Schema lookup on the modelled generator. -/
def getSchemaForSymbol (gen : Generator) (name : String) : Option Definition :=
  gen.lookup name

/-- Embedding of parseParam from src/parser.ts: builds a Param from a
tag, using the param-context named-example table when it has an entry
for the parameter name and the configured string default otherwise. -/
def parseParam (tag : Tag) (query : Bool) (config : Config) : Documentation.Param :=
  let examples := config.examples.param
  let ex :=
    match examples.lookup tag.name with
    | some v => v
    | none => config.defaults.string
  { name := tag.name, type := tag.type, description := tag.description,
    query := query, «example» := ex }

/-- Embedding of parseResponse from src/parser.ts.  The error carries
the diagnostic written by logger.errLine just before the NiceError is
thrown; its line is the comment start line plus the tag line offset. -/
def parseResponse (position : Position) (gen : Generator) (tag : Tag) (config : Config) :
    Except Diag Documentation.Response :=
  match jsParseInt tag.name with
  | none =>
    .error { sourceFile := position.sourceFile, line := position.line + tag.line,
             message := "Error: Response code " ++ tag.name ++ " should be a number." }
  | some responseCode =>
    let schemaBody : Except Diag (Option Definition × Option Json) :=
      if tag.type ≠ "" ∧ ¬ strContains tag.type '/' then
        match getSchemaForSymbol gen tag.type with
        | none =>
          .error { sourceFile := position.sourceFile, line := position.line + tag.line,
                   message := "Error: In generating schema for type " ++ tag.type ++ ", no schema." }
        | some schema =>
          match createSchemaExample schema config none with
          | .error m =>
            .error { sourceFile := position.sourceFile, line := position.line + tag.line,
                     message := "Error: " ++ m ++ "." }
          | .ok body => .ok (some schema, some body)
      else .ok (none, none)
    match schemaBody with
    | .error d => .error d
    | .ok (schema, body0) =>
      let adjustedDescription :=
        match wsAfterFirst (toString responseCode).data tag.source.data with
        | some ws => if ws.contains '\n' then "\n" ++ tag.description else tag.description
        | none => tag.description
      let sp := splitByFirstNewline adjustedDescription
      .ok { code := responseCode,
            whenCond := if sp.1 = "" then none else some sp.1,
            type := if schema.isSome then some "application/json"
                    else if tag.type = "" then none else some tag.type,
            body :=
              match sp.2 with
              | some r => if r = "" then body0 else some (.str r)
              | none => body0,
            schema := schema }

/-- Matches the anchored regexp of parseBody that strips one pair of
curly braces around the whole name slot; the dot of the regexp does not
match newlines, and none models a failed match. -/
def stripBraces (s : String) : Option String :=
  match s.data with
  | '{' :: rest =>
    if rest.getLast? = some '}' ∧ ¬ rest.dropLast.contains '\n' then some ⟨rest.dropLast⟩
    else none
  | _ => none

/-- JavaScript string truthiness for an optional string: null and the
empty string are falsy. -/
def truthyStr : Option String → Option String
  | some t => if t = "" then none else some t
  | none => none

/-- Embedding of parseBody from src/parser.ts: classifies the primary
bracket and the secondary name-slot bracket into content type (contains
a slash) and data-type name (does not), resolves the data type when one
is present, and prefers the literal continuation description over the
synthesized example. -/
def parseBody (position : Position) (gen : Generator) (tag : Tag) (config : Config) :
    Except Diag Documentation.RequestBody :=
  let fromType : Option String × Option String :=
    if tag.type = "" then (none, none)
    else if strContains tag.type '/' then (some tag.type, none)
    else (none, some tag.type)
  let classified : Except Diag (Option String × Option String) :=
    if tag.name = "" then .ok fromType
    else
      match stripBraces tag.name with
      | none =>
        .error { sourceFile := position.sourceFile, line := position.line + tag.line,
                 message := "Error: @body tag should have types surrounded in curly braces." }
      | some content =>
        if strContains content '/' then .ok (some content, fromType.2)
        else .ok (fromType.1, some content)
  match classified with
  | .error d => .error d
  | .ok (bodyContentType, bodyTypescriptType) =>
    let schemaBody : Except Diag (Option Definition × Option Json) :=
      match truthyStr bodyTypescriptType with
      | some t =>
        match getSchemaForSymbol gen t with
        | none =>
          .error { sourceFile := position.sourceFile, line := position.line + tag.line,
                   message := "Error: In generating schema for type " ++ t ++ ", no schema." }
        | some schema =>
          match createSchemaExample schema config none with
          | .error m =>
            .error { sourceFile := position.sourceFile, line := position.line + tag.line,
                     message := "Error: " ++ m ++ "." }
          | .ok body => .ok (some schema, some body)
      | none => .ok (none, none)
    match schemaBody with
    | .error d => .error d
    | .ok (schema, body0) =>
      .ok { type := bodyContentType,
            body := if tag.description ≠ "" then some (.str tag.description) else body0,
            schema := schema }

/-- A documentation comment attached to a call site, as comment-parser
returns it: the free-form description (title line, blank line,
description body) and the tag records. -/
structure ParsedComment where
  description : String
  tags : List Tag

/-- One qualifying route-registration call site, as the scanner sees it
after isRouterFunction accepted it: the TypeScript symbol of the
receiver binding (an opaque identity the checker resolves), the verb,
the literal path argument, the smallest start line over the leading
comment ranges, the line of the call itself, the file, and the parsed
leading comment (none when comment-parser found no documentation
block). -/
structure Call where
  sym : Nat
  method : String
  path : String
  commentLine : Nat
  callLine : Nat
  sourceFile : String
  comment : Option ParsedComment

/-- Errors escaping handleKoaRouter: a NiceError (already diagnosed,
caught per call site) or a plain Error (fatal, rethrown past the
traversal). -/
inductive DocError where
  | nice (d : Diag)
  | fatal (msg : String)

/-- Maps a fallible function over a list, stopping at the first error,
like a JavaScript Array.prototype.map whose callback throws. -/
def mapExcept (f : α → Except ε β) : List α → Except ε (List β)
  | [] => .ok []
  | a :: as =>
    match f a with
    | .error e => .error e
    | .ok b =>
      match mapExcept f as with
      | .error e => .error e
      | .ok bs => .ok (b :: bs)

/-- The absolute source line a tag diagnostic refers to: the comment
block starts at the smallest leading-comment line and comment-parser tag
line offsets are relative to that start. -/
def tagSourceLine (c : Call) (t : Tag) : Nat := c.commentLine + t.line

/-- Embedding of handleKoaRouter from src/parser.ts: builds a Block for
one qualifying call.  An undocumented call yields none (the warning is
attached by the scanner); response or body parse failures yield the
NiceError they threw; more than one body tag yields the plain (fatal)
Error. -/
def handleKoaRouter (c : Call) (gen : Generator) (config : Config) :
    Except DocError (Option Documentation.Block) :=
  match c.comment with
  | none => .ok none
  | some pc =>
    let pos : Position := { line := c.commentLine, sourceFile := c.sourceFile }
    let sp := splitByFirstNewline pc.description
    let description := jsTrim (sp.2.getD "")
    let urlParams := (pc.tags.filter (fun t => t.tag == "param")).map (fun t => parseParam t false config)
    let queryParams := (pc.tags.filter (fun t => t.tag == "query")).map (fun t => parseParam t true config)
    let params := urlParams ++ queryParams
    match mapExcept (fun t => parseResponse pos gen t config) (pc.tags.filter (fun t => t.tag == "response")) with
    | .error d => .error (.nice d)
    | .ok responses =>
      let bodies := pc.tags.filter (fun t => t.tag == "body")
      if bodies.length > 1 then .error (.fatal "Too many @body tags")
      else
        match bodies.head? with
        | some bt =>
          match parseBody pos gen bt config with
          | .error d => .error (.nice d)
          | .ok b =>
            .ok (some { method := c.method, path := c.path, title := sp.1,
                        description := description, params := params,
                        responses := responses, body := some b })
        | none =>
          .ok (some { method := c.method, path := c.path, title := sp.1,
                      description := description, params := params,
                      responses := responses, body := none })

/-- The warning diagnostic the scanner reports for a documented-less
route before skipping it. -/
def warnUndocumented (c : Call) : Diag :=
  { sourceFile := c.sourceFile, line := c.callLine,
    message := "Ignoring undocumented route " ++ asciiUpper c.method ++ " " ++ c.path }

/-- State of the traversal phase of documentSourceFile: the
routersToRoutes map (association list keyed by receiver symbol, in
first-encounter order), the diagnostics reported so far, and the message
of a fatal error when one escaped the traversal. -/
structure Phase1 where
  routerMap : List (Nat × List Documentation.Block)
  diags : List Diag
  fatal : Option String

/-- Appends a block to the route list of its router symbol in the
routersToRoutes map, creating the entry at the end on first encounter
(JavaScript Map insertion order). -/
def addRoute : List (Nat × List Documentation.Block) → Nat → Documentation.Block →
    List (Nat × List Documentation.Block)
  | [], sym, b => [(sym, [b])]
  | (s, bs) :: rest, sym, b =>
    if s = sym then (s, bs ++ [b]) :: rest
    else (s, bs) :: addRoute rest sym b

/-- Traversal loop of lookForRoutes over the qualifying call sites in
document order: a NiceError skips the call (its diagnostic was already
reported), a fatal error escapes the traversal immediately, an
undocumented call is skipped with a warning, and a parsed block is added
to the routersToRoutes map under the receiver symbol. -/
def scanCallsGo (gen : Generator) (config : Config) (acc : Phase1) : List Call → Phase1
  | [] => acc
  | c :: rest =>
    match handleKoaRouter c gen config with
    | .error (.fatal m) => { acc with fatal := some m }
    | .error (.nice d) => scanCallsGo gen config { acc with diags := acc.diags ++ [d] } rest
    | .ok none => scanCallsGo gen config { acc with diags := acc.diags ++ [warnUndocumented c] } rest
    | .ok (some b) => scanCallsGo gen config { acc with routerMap := addRoute acc.routerMap c.sym b } rest

/-- The traversal phase of documentSourceFile, started with an empty
routersToRoutes map. -/
def scanCalls (gen : Generator) (config : Config) (calls : List Call) : Phase1 :=
  scanCallsGo gen config ⟨[], [], none⟩ calls

/-- Appends a block to the group of its path, creating the group at the
end on first encounter, as groupByRoute does. -/
def addToGroups : List Documentation.Group → Documentation.Block → List Documentation.Group
  | [], b => [{ path := b.path, methods := [b] }]
  | g :: rest, b =>
    if g.path = b.path then { g with methods := g.methods ++ [b] } :: rest
    else g :: addToGroups rest b

/-- Embedding of groupByRoute from src/parser.ts: groups a list of
blocks by their path, keeping first-discovery order of groups and of
methods inside each group. -/
def groupByRoute (docs : List Documentation.Block) : List Documentation.Group :=
  docs.foldl addToGroups []

/-- The declaration-site documentation the checker exposes for a router
symbol: the JSDoc tags (name and text, the text empty when undefined)
and the documentation comment text. -/
structure RouterSymDoc where
  tags : List (String × String)
  comment : String

/-- The Router value parseRouterDoc builds when it does not throw: the
text of the first truthy-named JSDoc tag as path (falling back to the
root path), and title and description split at the first newline of the
documentation comment. -/
def mkRouter (sd : RouterSymDoc) (routes : List Documentation.Group) : Documentation.Router :=
  let routePaths := sd.tags.filter (fun t => t.1 != "")
  let path :=
    match routePaths.head? with
    | some p => if p.2 = "" then "/" else p.2
    | none => "/"
  let sp := splitByFirstNewline sd.comment
  { path := path, title := sp.1, description := sp.2, routes := routes }

/-- Embedding of parseRouterDoc from src/parser.ts: examines the JSDoc
of a router symbol; more than one truthy-named tag throws the plain
(fatal) Error, otherwise the Router is built by mkRouter. -/
def parseRouterDoc (sd : RouterSymDoc) (routes : List Documentation.Group) :
    Except String Documentation.Router :=
  let routePaths := sd.tags.filter (fun t => t.1 != "")
  if routePaths.length > 1 then .error "Too many @route tags"
  else .ok (mkRouter sd routes)

/-- The emission loop of documentSourceFile over the routersToRoutes
entries in first-encounter order: each entry is grouped, its router
documentation parsed and the router emitted; a parseRouterDoc error
escapes the loop, losing the routers not yet emitted.  Returns the
routers emitted before any error together with the fatal message. -/
def emitRouters (symDocs : Nat → RouterSymDoc) :
    List (Nat × List Documentation.Block) → List Documentation.Router × Option String
  | [] => ([], none)
  | (s, blocks) :: rest =>
    match parseRouterDoc (symDocs s) (groupByRoute blocks) with
    | .error m => ([], some m)
    | .ok r =>
      let p := emitRouters symDocs rest
      (r :: p.1, p.2)

/-- The outcome of documenting one source file: the routers handed to
the emitter (in order), the diagnostics reported, and the message of the
fatal error when the pass aborted. -/
structure FileResult where
  routers : List Documentation.Router
  diags : List Diag
  fatal : Option String

/-- Embedding of documentSourceFile from src/parser.ts: the traversal
phase collects routes per router symbol, then the emission loop runs
over the collected map; a fatal traversal error aborts before anything
is emitted, and a fatal emission error aborts the rest of the loop. -/
def documentSourceFile (calls : List Call) (symDocs : Nat → RouterSymDoc)
    (gen : Generator) (config : Config) : FileResult :=
  let p := scanCalls gen config calls
  match p.fatal with
  | some m => { routers := [], diags := p.diags, fatal := some m }
  | none =>
    let e := emitRouters symDocs p.routerMap
    { routers := e.1, diags := p.diags, fatal := e.2 }

/-- A tiny statement language capturing how router variables relate to
router object instances in the scanned TypeScript file: declaring a
fresh binding initialized with a new Router instance, declaring a fresh
binding aliasing the current value of another binding, reassigning an
existing binding to a new instance, and a qualifying registration call
on a binding.  Each binding identifier stands for one TypeScript symbol:
the checker resolves every occurrence of one declared variable to one
symbol, and distinct declarations (even aliases of the same instance)
get distinct symbols. -/
inductive Stmt where
  | declNew (x : Nat)
  | declAlias (x y : Nat)
  | assignNew (x : Nat)
  | register (x : Nat) (c : Call)

/-- Sets a binding to a value in an environment. -/
def setEnv : List (Nat × Nat) → Nat → Nat → List (Nat × Nat)
  | [], x, v => [(x, v)]
  | (k, w) :: rest, x, v =>
    if k = x then (k, v) :: rest else (k, w) :: setEnv rest x v

/-- Evaluation state for the statement language: binding environment
(symbol to instance), next fresh instance, the qualifying calls produced
so far (with the receiver symbol filled in), and the instance each call
was made on, in the same order. -/
structure EvalState where
  env : List (Nat × Nat)
  fresh : Nat
  calls : List Call
  insts : List Nat

/-- One evaluation step of the statement language. -/
def evalStmt (st : EvalState) : Stmt → EvalState
  | .declNew x => { st with env := setEnv st.env x st.fresh, fresh := st.fresh + 1 }
  | .declAlias x y => { st with env := setEnv st.env x ((st.env.lookup y).getD 0) }
  | .assignNew x => { st with env := setEnv st.env x st.fresh, fresh := st.fresh + 1 }
  | .register x c =>
    { st with calls := st.calls ++ [{ c with sym := x }],
              insts := st.insts ++ [(st.env.lookup x).getD 0] }

/-- Runs a statement-language program from the empty state. -/
def runProg (prog : List Stmt) : EvalState :=
  prog.foldl evalStmt { env := [], fresh := 0, calls := [], insts := [] }

/-- JavaScript truthiness of a JSON value, as tested by
`if (res.body)` in the emitter. -/
def jsTruthyJson : Json → Bool
  | .str s => s != ""
  | .num n => n != 0
  | .bool b => b
  | .arr _ => true
  | .obj _ => true

/-- The bracketed url of a route heading, as emitRoute builds it: the
leading router path joined with the converted block path, suffixed by
the query template listing the block query parameters in their
block-local order when any exist. -/
def routeUrl (doc : Documentation.Block) (leadingPath : String) : String :=
  let url := pathJoin leadingPath (formatPath doc.path)
  let queryParams := (doc.params.filter (fun p => p.query)).map (fun p => p.name)
  if queryParams.length > 0 then
    url ++ "\x7b?" ++ joinSep "," queryParams ++ "\x7d"
  else url

/-- Embedding of emitParam: the one parameter line, with the example
percent encoded by encodeURIComponent for query parameters and encodeURI
for url parameters. -/
def emitParam (p : Documentation.Param) : List String :=
  ["  + " ++ p.name ++ ": "
    ++ (if p.query then encodeURIComponent p.«example» else encodeURI p.«example»)
    ++ " (required, " ++ p.type ++ ") - " ++ p.description ++ "\n"]

/-- Joins lines with newlines after prefixing each with the response
plus body indent of the emitter (twelve spaces); the split, map and join
of the indented-body expressions in the emitter. -/
def indentLinesGo : List (List Char) → String
  | [] => ""
  | [l] => "            " ++ (⟨l⟩ : String)
  | l :: ls => "            " ++ (⟨l⟩ : String) ++ "\n" ++ indentLinesGo ls

/-- Indents every line of a rendered body by the response plus body
indent of the emitter (twelve spaces). -/
def indentBody (s : String) : String :=
  indentLinesGo (splitChar '\n' s.data)

/-- Embedding of emitResponse: the response heading with the status code
and the content type (omitted when null or the implicit text/plain), the
truthiness-guarded body section (a literal string verbatim, other values
stable-stringified), and the schema section when a schema exists. -/
def emitResponse (res : Documentation.Response) : List String :=
  ["\n+ Response " ++ toString res.code]
  ++ (match res.type with
      | some t => if t != "text/plain" then [" (" ++ t ++ ")"] else []
      | none => [])
  ++ ["\n"]
  ++ (match res.body with
      | some bj =>
        if jsTruthyJson bj then
          ["\n    + Body\n",
           "\n" ++ indentBody (match bj with | .str s => s | j => stableStringify j) ++ "\n"]
        else []
      | none => [])
  ++ (match res.schema with
      | some sch =>
        ["\n    + Schema\n",
         "\n" ++ indentBody (stableStringify (definitionToJson sch)) ++ "\n"]
      | none => [])

/-- Embedding of emitBody: the request heading with the content type
(null printed as the text null, as JavaScript string concatenation
does), and the indented body (a literal string verbatim, other values
stable-stringified). -/
def emitBody (b : Documentation.RequestBody) : List String :=
  ["\n+ Request <name> (" ++ (match b.type with | some t => t | none => "null") ++ ")",
   "\n" ++ indentBody (match b.body with
     | some (.str s) => s
     | some j => stableStringify j
     | none => "null") ++ "\n"]

/-- Embedding of emitRoute: one path heading (built from this block
alone), the method heading, the description, the parameters section when
parameters exist, the request section when a body exists, and one
response section per response in order.  Each element of the returned
list is one write call on the output stream. -/
def emitRoute (doc : Documentation.Block) (leadingPath : String) : List String :=
  ["\n## <Unnamed group> [" ++ routeUrl doc leadingPath ++ "]\n",
   "\n### " ++ doc.title ++ " [" ++ asciiUpper doc.method ++ "]\n",
   doc.description ++ "\n"]
  ++ (if doc.params.length > 0 then "\n+ Parameters\n" :: doc.params.flatMap emitParam else [])
  ++ (match doc.body with | some b => emitBody b | none => [])
  ++ doc.responses.flatMap emitResponse

/-- Embedding of emitGroup: emits every method of the group in order;
the note in the source records that it does not actually group them, so
emitRoute runs once per block. -/
def emitGroup (doc : Documentation.Group) (leadingPath : String) : List String :=
  doc.methods.flatMap (fun r => emitRoute r leadingPath)

/-- Embedding of the public emit method: the group heading for the
router followed by the writes of every route group. -/
def emitRouterWrites (doc : Documentation.Router) : List String :=
  ("\n# Group " ++ doc.title ++ "\n" ++ (doc.description.getD "") ++ "\n")
  :: doc.routes.flatMap (fun g => emitGroup g doc.path)

/-- Classifier for the theorems below: a write starts a path heading
when it begins with newline, two hash marks and a space. -/
def isPathHeadingWrite (w : String) : Bool :=
  ("\n## ".data).isPrefixOf w.data

/-- Number of path headings among a list of writes. -/
def countPathHeadings (ws : List String) : Nat :=
  (ws.filter isPathHeadingWrite).length

/-- The router symbol and block a call contributes to the
routersToRoutes map, none when the call is skipped. -/
def okBlock (gen : Generator) (config : Config) (c : Call) :
    Option (Nat × Documentation.Block) :=
  match handleKoaRouter c gen config with
  | .ok (some b) => some (c.sym, b)
  | _ => none

/-- The diagnostic a skipped call contributes, none for a parsed or
fatal call. -/
def callDiag (gen : Generator) (config : Config) (c : Call) : Option Diag :=
  match handleKoaRouter c gen config with
  | .error (.nice d) => some d
  | .ok none => some (warnUndocumented c)
  | _ => none

/-- Whether handling a call throws a plain (fatal) error that escapes
the traversal. -/
def isFatalCall (gen : Generator) (config : Config) (c : Call) : Bool :=
  match handleKoaRouter c gen config with
  | .error (.fatal _) => true
  | _ => false

/-- Concrete configuration used by witnesses: the defaults of the sample
docconfig and empty override tables. -/
def cfgW : Config := ⟨⟨"abcd", 1234, true, "key"⟩, ⟨[], []⟩⟩

/-- A schema of kind string. -/
def strDefn : Definition := .mk (.str "string") [] none none none none

/-- A schema of kind number. -/
def numDefn : Definition := .mk (.str "number") [] none none none none

/-- Concrete generator used by witnesses: one resolvable type name. -/
def genW : Generator := [("T", strDefn)]

/-- Router symbol documentation with no JSDoc tags. -/
def sdEmpty : Nat → RouterSymDoc := fun _ => ⟨[], "R"⟩

/-- Router symbol documentation where symbol zero carries two route
tags and every other symbol carries none. -/
def sdTwoTags : Nat → RouterSymDoc :=
  fun n => if n = 0 then ⟨[("route", "/a"), ("route", "/b")], "Bad"⟩ else ⟨[], "Good"⟩

/-- A minimal documented call on the given router symbol and path. -/
def plainCall (sym : Nat) (path : String) : Call :=
  { sym := sym, method := "get", path := path, commentLine := 1, callLine := 5,
    sourceFile := "f.ts", comment := some ⟨"A", []⟩ }

/-- A response tag whose status-code slot is not numeric. -/
def tagBadCode : Tag :=
  { tag := "response", type := "", name := "abc",
    description := "", line := 3, source := "@response abc 200" }

/-- A response tag whose structural type name does not resolve. -/
def tagBadType : Tag :=
  { tag := "response", type := "Missing", name := "500",
    description := "", line := 4, source := "@response \x7bMissing\x7d 500" }

/-- A resolvable response tag. -/
def tagGood : Tag :=
  { tag := "response", type := "T", name := "200",
    description := "ok case", line := 8, source := "@response \x7bT\x7d 200 ok case" }

/-- A call whose comment has a malformed response code followed by a
well-formed sibling response tag. -/
def callBadCode : Call :=
  { sym := 0, method := "get", path := "/bad", commentLine := 10, callLine := 16,
    sourceFile := "f.ts", comment := some ⟨"B\n\nD", [tagBadCode, tagGood]⟩ }

/-- A call whose comment has an unresolvable response type followed by a
well-formed sibling response tag. -/
def callBadType : Call :=
  { sym := 0, method := "get", path := "/bad", commentLine := 20, callLine := 27,
    sourceFile := "f.ts", comment := some ⟨"B\n\nD", [tagBadType, tagGood]⟩ }

/-- A url-parameter tag fixture. -/
def tagParamW : Tag :=
  { tag := "param", type := "string", name := "id", description := "the id",
    line := 4, source := "@param \x7bstring\x7d id the id" }

/-- A query-parameter tag fixture. -/
def tagQueryW : Tag :=
  { tag := "query", type := "string", name := "q", description := "the query",
    line := 3, source := "@query \x7bstring\x7d q the query" }

/-- A parsed comment interleaving a query tag before a param tag. -/
def pcParams : ParsedComment := ⟨"P\n\nD", [tagQueryW, tagParamW]⟩

/-- A call interleaving a query tag before a param tag. -/
def callParams : Call :=
  { sym := 0, method := "get", path := "/p/:id", commentLine := 1, callLine := 7,
    sourceFile := "f.ts", comment := some pcParams }

/-- The block the scanner builds for callParams. -/
def blockParams : Documentation.Block :=
  { method := "get", path := "/p/:id", title := "P", description := "D",
    params := [⟨false, "id", "string", "the id", "abcd"⟩,
               ⟨true, "q", "string", "the query", "abcd"⟩],
    responses := [], body := none }

/-- Aliasing program: two bindings (symbols zero and one) refer to the
same router instance, and one registration is made through each. -/
def progAlias : List Stmt :=
  [.declNew 0, .declAlias 1 0,
   .register 0 (plainCall 0 "/a"), .register 1 (plainCall 1 "/b")]

/-- Reassignment program: one binding (symbol zero) is reassigned to a
second router instance between two registrations. -/
def progReassign : List Stmt :=
  [.declNew 0, .register 0 (plainCall 0 "/a"),
   .assignNew 0, .register 0 (plainCall 0 "/b")]

/-- A minimal block on the given path with the given parameters. -/
def plainBlock (path : String) (ps : List Documentation.Param) : Documentation.Block :=
  { method := "get", path := path, title := "T", description := "D",
    params := ps, responses := [], body := none }

/-- A group holding two blocks of the same path. -/
def groupTwo : Documentation.Group :=
  ⟨"/x", [plainBlock "/x" [], plainBlock "/x" []]⟩

/-- A group holding one block with one query parameter. -/
def groupOne : Documentation.Group :=
  ⟨"/g/:id", [plainBlock "/g/:id" [⟨true, "q", "string", "d", "v"⟩]]⟩

/-- C10: for every param or query tag, the resulting Param example is
the param-context override registered for the parameter name when one
exists and the configured string default otherwise, independently of the
declared type of the parameter. -/
theorem c10_param_example_ignores_type (tag : Tag) (query : Bool) (config : Config) :
    (parseParam tag query config).«example»
      = ((config.examples.param.lookup tag.name).getD config.defaults.string)
    ∧ ∀ ty : String,
        (parseParam { tag with type := ty } query config).«example»
          = (parseParam tag query config).«example» := by
  constructor
  · cases h : config.examples.param.lookup tag.name <;> simp [parseParam, h]
  · intro ty
    cases h : config.examples.param.lookup tag.name <;> simp [parseParam, h]

/-- C9: example synthesis for an object schema with exactly a string
property and a number property, neither having a registered
response-context override, yields exactly the mapping of the first name
to the configured string default and the second name to the configured
number default. -/
theorem c9_object_example_defaults (config : Config) (a b : String)
    (ha : config.examples.response.lookup a = none)
    (hb : config.examples.response.lookup b = none) :
    createSchemaExample
      (.mk (.str "object")
        [(a, .mk (.str "string") [] none none none none),
         (b, .mk (.str "number") [] none none none none)]
        none none none none) config none
      = .ok (.obj [(a, .str config.defaults.string), (b, .num config.defaults.number)]) := by
  simp [createSchemaExample, exampleFields, Except.bind, ha, hb]

/-- Witness for C9 at a concrete configuration with empty override
tables. -/
theorem c9_object_example_defaults_witness :
    createSchemaExample
      (.mk (.str "object") [("a", .mk (.str "string") [] none none none none),
        ("b", .mk (.str "number") [] none none none none)] none none none none) cfgW none
      = .ok (.obj [("a", .str "abcd"), ("b", .num 1234)]) :=
  c9_object_example_defaults cfgW "a" "b" rfl rfl

/-- When the conversion regexp has no match left (every colon is
followed by a slash or ends the string), a rescan leaves the text
unchanged. -/
theorem fmtScan_fixed (l : List Char) (h : noColonSeg l = true) : fmtScan l = l := by
  refine fmtScan.induct (fun l => noColonSeg l = true → fmtScan l = l)
    (fun _ => True) ?_ ?_ ?_ ?_ ?_ ?_ ?_ ?_ l h
  · exact fun _ => rfl
  · exact fun _ => rfl
  · intro rest ih h
    have h2 : noColonSeg rest = true := by
      simpa [noColonSeg] using h
    simp [fmtScan, ih h2]
  · intro c rest hc _ h
    simp [noColonSeg, hc] at h
  · intro c rest hc ih h
    have h2 : noColonSeg rest = true := by
      simpa [noColonSeg, hc] using h
    rw [fmtScan.eq_def]
    simp [hc, ih h2]
  · trivial
  · intro _ _; trivial
  · intro _ _ _ _; trivial

/-- Scanning a path every slash-free segment of which carries at most
one colon produces text on which the conversion regexp has no further
match. -/
theorem noColonSeg_fmtScan (l : List Char) (h : okSeg false l = true) :
    noColonSeg (fmtScan l) = true := by
  refine fmtScan.induct (fun l => okSeg false l = true → noColonSeg (fmtScan l) = true)
    (fun l => okSeg true l = true → noColonSeg (fmtSeg l) = true) ?_ ?_ ?_ ?_ ?_ ?_ ?_ ?_ l h
  · exact fun _ => rfl
  · exact fun _ => rfl
  · intro rest ih h
    have h2 : okSeg false rest = true := by
      simpa [okSeg] using h
    simp [fmtScan, noColonSeg, ih h2]
  · intro c rest hc ih h
    by_cases hcc : c = ':'
    · subst hcc; simp [okSeg, hc] at h
    · have h2 : okSeg true rest = true := by
        simpa [okSeg, hc, hcc] using h
      simp [fmtScan, hc, noColonSeg, hcc, ih h2]
  · intro c rest hc ih h
    have h2 : okSeg false rest = true := by
      by_cases hsl : c = '/'
      · simpa [okSeg, hsl] using h
      · simpa [okSeg, hsl, hc] using h
    rw [fmtScan.eq_def]
    simp [hc, noColonSeg, ih h2]
  · exact fun _ => rfl
  · intro rest ih h
    have h2 : okSeg false rest = true := by
      simpa [okSeg] using h
    simp [fmtSeg, noColonSeg, ih h2]
  · intro c rest hc ih h
    by_cases hcc : c = ':'
    · subst hcc; simp [okSeg, hc] at h
    · have h2 : okSeg true rest = true := by
        simpa [okSeg, hc, hcc] using h
      simp [fmtSeg, hc, noColonSeg, hcc, ih h2]

/-- C5 counterexample: the path placeholder conversion is not idempotent
on every path string; a segment holding two consecutive colons converts
differently on the second pass. -/
theorem c5_counterexample :
    formatPath (formatPath "/a/::x") ≠ formatPath "/a/::x" := by decide

/-- C5 amended: the path placeholder conversion is idempotent on every
path string in which each slash-separated segment contains at most one
colon (which covers every koa-style registration path). -/
theorem c5_idempotent_on_ok_paths (s : String) (h : okPath s = true) :
    formatPath (formatPath s) = formatPath s := by
  have h1 : noColonSeg (fmtScan s.data) = true := noColonSeg_fmtScan s.data h
  have h2 : fmtScan (fmtScan s.data) = fmtScan s.data := fmtScan_fixed _ h1
  exact congrArg String.mk h2

/-- Witness for the amended C5 at a concrete registration path. -/
theorem c5_idempotent_witness :
    okPath "/user/:id" = true
      ∧ formatPath (formatPath "/user/:id") = formatPath "/user/:id" :=
  ⟨by decide, c5_idempotent_on_ok_paths "/user/:id" (by decide)⟩

/-- C3: for every call the scanner accepts, the params list of the built
block is the url params (in source tag order) followed by the query
params (in source tag order), whatever the interleaving of the tags in
the comment; every element of the first part is a url parameter and
every element of the second a query parameter. -/
theorem c3_url_params_precede_query (c : Call) (gen : Generator) (config : Config)
    (pc : ParsedComment) (b : Documentation.Block)
    (hc : c.comment = some pc)
    (hb : handleKoaRouter c gen config = .ok (some b)) :
    b.params
      = (pc.tags.filter (fun t => t.tag == "param")).map (fun t => parseParam t false config)
        ++ (pc.tags.filter (fun t => t.tag == "query")).map (fun t => parseParam t true config)
    ∧ (∀ p ∈ (pc.tags.filter (fun t => t.tag == "param")).map (fun t => parseParam t false config),
        p.query = false)
    ∧ (∀ p ∈ (pc.tags.filter (fun t => t.tag == "query")).map (fun t => parseParam t true config),
        p.query = true) := by
  refine ⟨?_, ?_, ?_⟩
  · unfold handleKoaRouter at hb
    rw [hc] at hb
    simp only [] at hb
    split at hb
    · exact absurd hb (by simp)
    · split at hb
      · exact absurd hb (by simp)
      · split at hb
        · split at hb
          · exact absurd hb (by simp)
          · simp only [Except.ok.injEq, Option.some.injEq] at hb
            rw [← hb]
        · simp only [Except.ok.injEq, Option.some.injEq] at hb
          rw [← hb]
  · intro p hp
    simp only [List.mem_map] at hp
    obtain ⟨t, ht, rfl⟩ := hp
    simp [parseParam]
  · intro p hp
    simp only [List.mem_map] at hp
    obtain ⟨t, ht, rfl⟩ := hp
    simp [parseParam]

/-- Witness for C3 at a concrete call whose comment interleaves a query
tag before a param tag. -/
theorem c3_url_params_precede_query_witness :
    blockParams.params
      = (pcParams.tags.filter (fun t => t.tag == "param")).map (fun t => parseParam t false cfgW)
        ++ (pcParams.tags.filter (fun t => t.tag == "query")).map (fun t => parseParam t true cfgW) :=
  (c3_url_params_precede_query callParams genW cfgW pcParams blockParams rfl rfl).1

/-- Splitting at the first newline of a newline-free character list
returns the whole list and no remainder. -/
theorem splitAtFirstNl_of_not_mem (l : List Char) (h : '\n' ∉ l) :
    splitAtFirstNl l = (l, none) := by
  induction l with
  | nil => rfl
  | cons c rest ih =>
    have hc : ¬ c = '\n' := fun he => h (he ▸ List.mem_cons_self c rest)
    have hr : '\n' ∉ rest := fun hm => h (List.mem_cons_of_mem c hm)
    simp [splitAtFirstNl, hc, ih hr]

/-- Splitting a newline-free string at the first newline returns the
string itself and no remainder. -/
theorem splitByFirstNewline_of_not_mem (s : String) (h : '\n' ∉ s.data) :
    splitByFirstNewline s = (s, none) := by
  unfold splitByFirstNewline
  rw [splitAtFirstNl_of_not_mem s.data h]
  rfl

/-- Splitting a string prefixed by one newline yields the empty first
line and the rest verbatim. -/
theorem splitByFirstNewline_newline_prefix (s : String) :
    splitByFirstNewline ("\n" ++ s) = ("", some s) := by
  unfold splitByFirstNewline
  have hd : ("\n" ++ s).data = '\n' :: s.data := rfl
  rw [hd]
  simp [splitAtFirstNl]

/-- C4: a response tag carrying no structural type whose raw source has
a newline in the whitespace after the status code (an indented
continuation line) yields a Response whose body is the continuation text
verbatim and whose schema is null; a response tag with a resolvable
structural type, no newline after the code and no continuation text
yields a Response whose body is the synthesized example of the resolved
schema and whose schema is that schema. -/
theorem c4_response_literal_vs_schema :
    (∀ (pos : Position) (gen : Generator) (config : Config) (tag : Tag) (code : Int)
       (ws : List Char),
      jsParseInt tag.name = some code →
      (tag.type = "" ∨ strContains tag.type '/' = true) →
      wsAfterFirst (toString code).data tag.source.data = some ws →
      ws.contains '\n' = true →
      tag.description ≠ "" →
      parseResponse pos gen tag config
        = .ok { code := code, whenCond := none,
                type := if tag.type = "" then none else some tag.type,
                body := some (.str tag.description), schema := none })
    ∧ (∀ (pos : Position) (gen : Generator) (config : Config) (tag : Tag) (code : Int)
         (sch : Definition) (ex : Json),
      jsParseInt tag.name = some code →
      tag.type ≠ "" →
      strContains tag.type '/' = false →
      getSchemaForSymbol gen tag.type = some sch →
      createSchemaExample sch config none = .ok ex →
      '\n' ∉ tag.description.data →
      (∀ ws, wsAfterFirst (toString code).data tag.source.data = some ws →
        ws.contains '\n' = false) →
      parseResponse pos gen tag config
        = .ok { code := code,
                whenCond := if tag.description = "" then none else some tag.description,
                type := some "application/json",
                body := some ex, schema := some sch }) := by
  constructor
  · intro pos gen config tag code ws hcode htype hws hnl hdesc
    have hcond : ¬ (tag.type ≠ "" ∧ ¬ strContains tag.type '/') := by
      rcases htype with h | h
      · simp [h]
      · simp [h]
    unfold parseResponse
    rw [hcode]
    simp only [hcond, if_false, reduceIte, hws, hnl, if_true,
      splitByFirstNewline_newline_prefix]
    simp [hdesc]
  · intro pos gen config tag code sch ex hcode htype hslash hres hex hdescnl hws
    have hcond : tag.type ≠ "" ∧ ¬ strContains tag.type '/' := ⟨htype, by simp [hslash]⟩
    unfold parseResponse
    rw [hcode]
    have hsplit := splitByFirstNewline_of_not_mem tag.description hdescnl
    cases hw : wsAfterFirst (toString code).data tag.source.data with
    | none => simp [hcond, hres, hex, hw, hsplit]
    | some ws =>
      have hmem : '\n' ∉ ws := by simpa using hws ws hw
      simp [hcond, hres, hex, hw, hmem, hsplit]

/-- Witness for C4 at the two concrete response tags: one with literal
continuation text and no type, one with a resolvable type and no
continuation. -/
theorem c4_response_literal_vs_schema_witness :
    parseResponse ⟨10, "f.ts"⟩ genW
      { tag := "response", type := "", name := "400",
        description := "Text based response", line := 7,
        source := "@response 400\n Text based response" } cfgW
      = .ok { code := 400, whenCond := none, type := none,
              body := some (.str "Text based response"), schema := none }
    ∧ parseResponse ⟨10, "f.ts"⟩ genW tagGood cfgW
      = .ok { code := 200, whenCond := some "ok case", type := some "application/json",
              body := some (.str "abcd"), schema := some strDefn } := by
  constructor
  · have h := c4_response_literal_vs_schema.1 ⟨10, "f.ts"⟩ genW cfgW
      { tag := "response", type := "", name := "400",
        description := "Text based response", line := 7,
        source := "@response 400\n Text based response" } 400 ['\n', ' ']
      (by decide) (Or.inl rfl) (by decide) (by decide) (by decide)
    simpa using h
  · have h := c4_response_literal_vs_schema.2 ⟨10, "f.ts"⟩ genW cfgW tagGood 200 strDefn
      (.str "abcd") (by decide) (by decide) (by decide) rfl rfl (by decide)
      (by
        intro ws hw
        have h2 : wsAfterFirst (toString (200 : Int)).data tagGood.source.data
            = some [' '] := by decide
        rw [h2, Option.some.injEq] at hw
        subst hw
        decide)
    simpa [tagGood] using h

/-- Effect of addRoute on association-list lookup: the targeted symbol
gains the block at the end of its list (the entry being created when
absent) and every other symbol is untouched. -/
theorem lookup_addRoute (m : List (Nat × List Documentation.Block)) (a : Nat)
    (b : Documentation.Block) (s : Nat) :
    (addRoute m a b).lookup s
      = if s = a then some ((m.lookup s).getD [] ++ [b]) else m.lookup s := by
  induction m with
  | nil =>
    by_cases h : s = a
    · subst h
      simp [addRoute, List.lookup]
    · have hb : (s == a) = false := by simpa using h
      simp [addRoute, List.lookup, hb, h]
  | cons p rest ih =>
    obtain ⟨k, bs⟩ := p
    by_cases hka : k = a
    · subst hka
      by_cases hsk : s = k
      · subst hsk
        simp [addRoute, List.lookup]
      · have hb : (s == k) = false := by simpa using hsk
        simp [addRoute, List.lookup, hb, hsk]
    · by_cases hsk : s = k
      · subst hsk
        have hsa : ¬ s = a := hka
        simp [addRoute, List.lookup, hka, hsa]
      · have hb : (s == k) = false := by simpa using hsk
        simp [addRoute, List.lookup, hka, hb, ih]

/-- The traversal loop, run over calls none of which throws a fatal
error, appends the per-call diagnostics in order, folds the per-call
blocks into the routersToRoutes map, and keeps the fatal flag of the
accumulator. -/
theorem scanCallsGo_no_fatal (gen : Generator) (config : Config) :
    ∀ (calls : List Call) (acc : Phase1),
      (∀ c ∈ calls, isFatalCall gen config c = false) →
      scanCallsGo gen config acc calls
        = { routerMap := (calls.filterMap (okBlock gen config)).foldl
              (fun m p => addRoute m p.1 p.2) acc.routerMap,
            diags := acc.diags ++ calls.filterMap (callDiag gen config),
            fatal := acc.fatal } := by
  intro calls
  induction calls with
  | nil => intro acc h; simp [scanCallsGo]
  | cons c rest ih =>
    intro acc h
    have hc := h c (List.mem_cons_self c rest)
    have hrest : ∀ c2 ∈ rest, isFatalCall gen config c2 = false :=
      fun c2 hm => h c2 (List.mem_cons_of_mem c hm)
    cases hh : handleKoaRouter c gen config with
    | error e =>
      cases e with
      | fatal m => simp [isFatalCall, hh] at hc
      | nice d => simp [scanCallsGo, hh, ih _ hrest, okBlock, callDiag]
    | ok ob =>
      cases ob with
      | none => simp [scanCallsGo, hh, ih _ hrest, okBlock, callDiag]
      | some b => simp [scanCallsGo, hh, ih _ hrest, okBlock, callDiag]

/-- The traversal phase over fatal-free calls: diagnostics and router
map are the concatenation and fold of the per-call contributions. -/
theorem scanCalls_no_fatal (gen : Generator) (config : Config) (calls : List Call)
    (h : ∀ c ∈ calls, isFatalCall gen config c = false) :
    scanCalls gen config calls
      = { routerMap := (calls.filterMap (okBlock gen config)).foldl
            (fun m p => addRoute m p.1 p.2) [],
          diags := calls.filterMap (callDiag gen config),
          fatal := none } := by
  unfold scanCalls
  rw [scanCallsGo_no_fatal gen config calls _ h]
  simp

/-- When the first response tag of the comment of a call makes
parseResponse throw, handleKoaRouter rethrows that NiceError. -/
theorem handleKoaRouter_first_response_error (c : Call) (gen : Generator) (config : Config)
    (pc : ParsedComment) (t : Tag) (rest : List Tag) (d : Diag)
    (hc : c.comment = some pc)
    (ht : pc.tags.filter (fun x => x.tag == "response") = t :: rest)
    (hp : parseResponse ⟨c.commentLine, c.sourceFile⟩ gen t config = .error d) :
    handleKoaRouter c gen config = .error (.nice d) := by
  unfold handleKoaRouter
  rw [hc]
  simp only [ht, mapExcept, hp]

/-- A call handled with a NiceError is skipped: its diagnostic is
reported, and the router map and the emitted routers are the same as if
the call were absent, the sibling calls being processed unchanged. -/
theorem scan_skip_of_nice (gen : Generator) (config : Config) (symDocs : Nat → RouterSymDoc)
    (pre suf : List Call) (c : Call) (d : Diag)
    (h1 : handleKoaRouter c gen config = .error (.nice d))
    (hnf : ∀ c2 ∈ pre ++ c :: suf, isFatalCall gen config c2 = false) :
    d ∈ (scanCalls gen config (pre ++ c :: suf)).diags
    ∧ (scanCalls gen config (pre ++ c :: suf)).routerMap
        = (scanCalls gen config (pre ++ suf)).routerMap
    ∧ (documentSourceFile (pre ++ c :: suf) symDocs gen config).routers
        = (documentSourceFile (pre ++ suf) symDocs gen config).routers := by
  have hnf2 : ∀ c2 ∈ pre ++ suf, isFatalCall gen config c2 = false := by
    intro c2 hm
    refine hnf c2 ?_
    rcases List.mem_append.1 hm with h | h
    · exact List.mem_append.2 (Or.inl h)
    · exact List.mem_append.2 (Or.inr (List.mem_cons_of_mem c h))
  have hfull := scanCalls_no_fatal gen config (pre ++ c :: suf) hnf
  have hred := scanCalls_no_fatal gen config (pre ++ suf) hnf2
  have hok : okBlock gen config c = none := by simp [okBlock, h1]
  have hdg : callDiag gen config c = some d := by simp [callDiag, h1]
  have hfm : (pre ++ c :: suf).filterMap (okBlock gen config)
      = (pre ++ suf).filterMap (okBlock gen config) := by
    simp [List.filterMap_append, List.filterMap_cons, hok]
  refine ⟨?_, ?_, ?_⟩
  · rw [hfull]
    simp [List.filterMap_append, List.filterMap_cons, hdg]
  · rw [hfull, hred]
    simp only [hfm]
  · unfold documentSourceFile
    rw [hfull, hred]
    simp [hfm]

/-- C7: a response tag whose status-code slot does not parse as a number
makes handleKoaRouter throw the NiceError carrying the diagnostic with
the exact source line of the tag (comment start plus tag offset); the
scanner reports that diagnostic, drops exactly that route, and the
router map and the emitted routers are the same as if the call were
absent, sibling routes being processed and emitted unchanged. -/
theorem c7_bad_response_code_skips_route
    (gen : Generator) (config : Config) (symDocs : Nat → RouterSymDoc)
    (pre suf : List Call) (c : Call) (pc : ParsedComment) (t : Tag) (rest : List Tag)
    (hc : c.comment = some pc)
    (ht : pc.tags.filter (fun x => x.tag == "response") = t :: rest)
    (hn : jsParseInt t.name = none)
    (hnf : ∀ c2 ∈ pre ++ c :: suf, isFatalCall gen config c2 = false) :
    handleKoaRouter c gen config
      = .error (.nice { sourceFile := c.sourceFile, line := tagSourceLine c t,
                        message := "Error: Response code " ++ t.name ++ " should be a number." })
    ∧ { sourceFile := c.sourceFile, line := tagSourceLine c t,
        message := "Error: Response code " ++ t.name ++ " should be a number." : Diag }
        ∈ (scanCalls gen config (pre ++ c :: suf)).diags
    ∧ (scanCalls gen config (pre ++ c :: suf)).routerMap
        = (scanCalls gen config (pre ++ suf)).routerMap
    ∧ (documentSourceFile (pre ++ c :: suf) symDocs gen config).routers
        = (documentSourceFile (pre ++ suf) symDocs gen config).routers := by
  have hp : parseResponse ⟨c.commentLine, c.sourceFile⟩ gen t config
      = .error { sourceFile := c.sourceFile, line := tagSourceLine c t,
                 message := "Error: Response code " ++ t.name ++ " should be a number." } := by
    unfold parseResponse
    rw [hn]
    rfl
  have h1 := handleKoaRouter_first_response_error c gen config pc t rest _ hc ht hp
  have h2 := scan_skip_of_nice gen config symDocs pre suf c _ h1 hnf
  exact ⟨h1, h2.1, h2.2.1, h2.2.2⟩

/-- Witness for C7: a malformed response code between two healthy
sibling routes is skipped with its diagnostic while the siblings are
unaffected. -/
theorem c7_bad_response_code_witness :
    { sourceFile := "f.ts", line := 13,
      message := "Error: Response code abc should be a number." : Diag }
      ∈ (scanCalls genW cfgW ([plainCall 1 "/ok"] ++ callBadCode :: [plainCall 2 "/ok2"])).diags
    ∧ (scanCalls genW cfgW ([plainCall 1 "/ok"] ++ callBadCode :: [plainCall 2 "/ok2"])).routerMap
      = (scanCalls genW cfgW ([plainCall 1 "/ok"] ++ [plainCall 2 "/ok2"])).routerMap := by
  have h := c7_bad_response_code_skips_route genW cfgW sdEmpty
    [plainCall 1 "/ok"] [plainCall 2 "/ok2"] callBadCode ⟨"B\n\nD", [tagBadCode, tagGood]⟩
    tagBadCode [tagGood] rfl rfl rfl (by decide)
  exact ⟨h.2.1, h.2.2.1⟩

/-- C2 (amended): a response tag whose structural type name fails to
resolve makes parseResponse throw after reporting the diagnostic with
the originating source position; the whole enclosing route (its Block)
is dropped, not just the tag, while sibling routes are processed and
emitted unchanged. -/
theorem c2_resolution_failure_drops_route
    (gen : Generator) (config : Config) (symDocs : Nat → RouterSymDoc)
    (pre suf : List Call) (c : Call) (pc : ParsedComment) (t : Tag) (rest : List Tag)
    (code : Int)
    (hc : c.comment = some pc)
    (ht : pc.tags.filter (fun x => x.tag == "response") = t :: rest)
    (hn : jsParseInt t.name = some code)
    (htype : t.type ≠ "")
    (hslash : strContains t.type '/' = false)
    (hres : getSchemaForSymbol gen t.type = none)
    (hnf : ∀ c2 ∈ pre ++ c :: suf, isFatalCall gen config c2 = false) :
    handleKoaRouter c gen config
      = .error (.nice { sourceFile := c.sourceFile, line := tagSourceLine c t,
                        message := "Error: In generating schema for type " ++ t.type
                          ++ ", no schema." })
    ∧ { sourceFile := c.sourceFile, line := tagSourceLine c t,
        message := "Error: In generating schema for type " ++ t.type ++ ", no schema." : Diag }
        ∈ (scanCalls gen config (pre ++ c :: suf)).diags
    ∧ (scanCalls gen config (pre ++ c :: suf)).routerMap
        = (scanCalls gen config (pre ++ suf)).routerMap
    ∧ (documentSourceFile (pre ++ c :: suf) symDocs gen config).routers
        = (documentSourceFile (pre ++ suf) symDocs gen config).routers := by
  have hcond : t.type ≠ "" ∧ ¬ strContains t.type '/' := ⟨htype, by simp [hslash]⟩
  have hp : parseResponse ⟨c.commentLine, c.sourceFile⟩ gen t config
      = .error { sourceFile := c.sourceFile, line := tagSourceLine c t,
                 message := "Error: In generating schema for type " ++ t.type
                   ++ ", no schema." } := by
    unfold parseResponse
    rw [hn]
    simp [hcond, hres]
    rfl
  have h1 := handleKoaRouter_first_response_error c gen config pc t rest _ hc ht hp
  have h2 := scan_skip_of_nice gen config symDocs pre suf c _ h1 hnf
  exact ⟨h1, h2.1, h2.2.1, h2.2.2⟩

/-- C2 counterexample: a call whose comment has a response tag with an
unresolvable structural type followed by a healthy sibling tag produces
no Block at all (the whole route is dropped and nothing is emitted for
it), refuting the claim that only the failing tag is dropped while the
Block and its sibling tags are still emitted; the diagnostic with the
originating position is the only output. -/
theorem c2_counterexample :
    (documentSourceFile [callBadType] sdEmpty genW cfgW).routers = []
    ∧ (documentSourceFile [callBadType] sdEmpty genW cfgW).diags
      = [{ sourceFile := "f.ts", line := 24,
           message := "Error: In generating schema for type Missing, no schema." }] :=
  ⟨rfl, rfl⟩

/-- Witness for the amended C2 at a concrete call with an unresolvable
response type between two healthy sibling routes. -/
theorem c2_resolution_failure_witness :
    { sourceFile := "f.ts", line := 24,
      message := "Error: In generating schema for type Missing, no schema." : Diag }
      ∈ (scanCalls genW cfgW ([plainCall 1 "/ok"] ++ callBadType :: [plainCall 2 "/ok2"])).diags
    ∧ (scanCalls genW cfgW ([plainCall 1 "/ok"] ++ callBadType :: [plainCall 2 "/ok2"])).routerMap
      = (scanCalls genW cfgW ([plainCall 1 "/ok"] ++ [plainCall 2 "/ok2"])).routerMap := by
  have h := c2_resolution_failure_drops_route genW cfgW sdEmpty
    [plainCall 1 "/ok"] [plainCall 2 "/ok2"] callBadType ⟨"B\n\nD", [tagBadType, tagGood]⟩
    tagBadType [tagGood] 500 rfl rfl rfl (by decide) (by decide) rfl (by decide)
  exact ⟨h.2.1, h.2.2.1⟩

/-- Lookup through a left fold of addRoute: a symbol maps to the blocks
contributed for it, in order, appended to whatever the starting map
already held for it; absent symbols stay absent. -/
theorem lookup_foldl_addRoute :
    ∀ (ps : List (Nat × Documentation.Block)) (m : List (Nat × List Documentation.Block)) (s : Nat),
      (ps.foldl (fun m p => addRoute m p.1 p.2) m).lookup s
        = (if (m.lookup s).isNone && (ps.filter (fun p => p.1 == s)).isEmpty
           then none
           else some ((m.lookup s).getD []
             ++ ((ps.filter (fun p => p.1 == s)).map (fun p => p.2)))) := by
  intro ps
  induction ps with
  | nil =>
    intro m s
    cases h : m.lookup s <;> simp [h]
  | cons p ps ih =>
    intro m s
    simp only [List.foldl_cons]
    rw [ih]
    by_cases hp : p.1 = s
    · have hb : (p.1 == s) = true := by simpa using hp
      have hsp : s = p.1 := hp.symm
      rw [lookup_addRoute, if_pos hsp]
      simp [hb, List.filter_cons]
    · have hb : (p.1 == s) = false := by simpa using hp
      have hps : ¬ s = p.1 := fun he => hp he.symm
      have hfc : List.filter (fun q => q.1 == s) (p :: ps)
          = List.filter (fun q => q.1 == s) ps := by
        simp [List.filter_cons, hb]
      rw [lookup_addRoute, if_neg hps, hfc]

/-- C1 (amended): route aggregation is keyed by the TypeScript symbol of
the receiver binding and by nothing else: for every symbol, the
routersToRoutes entry holds exactly the blocks of the calls whose
receiver resolves to that symbol, in traversal order, so registrations
through one binding are always one Router (even across reassignment of
the binding to a different router instance) and registrations through
distinct bindings are never merged (even when the bindings alias one
instance). -/
theorem c1_grouping_by_symbol (gen : Generator) (config : Config) (calls : List Call) (s : Nat)
    (hnf : ∀ c ∈ calls, isFatalCall gen config c = false) :
    ((scanCalls gen config calls).routerMap).lookup s
      = (if ((calls.filterMap (okBlock gen config)).filter (fun p => p.1 == s)).isEmpty
         then none
         else some (((calls.filterMap (okBlock gen config)).filter (fun p => p.1 == s)).map
          (fun p => p.2))) := by
  rw [scanCalls_no_fatal gen config calls hnf]
  simp only []
  rw [lookup_foldl_addRoute]
  simp only [List.lookup, Bool.true_and, Option.isNone_none, Option.getD_none, List.nil_append]

/-- Witness for the amended C1 on the calls of the aliasing program. -/
theorem c1_grouping_by_symbol_witness :
    ((scanCalls genW cfgW (runProg progAlias).calls).routerMap).lookup 0
      = (if (((runProg progAlias).calls.filterMap (okBlock genW cfgW)).filter
            (fun p => p.1 == 0)).isEmpty
         then none
         else some ((((runProg progAlias).calls.filterMap (okBlock genW cfgW)).filter
          (fun p => p.1 == 0)).map (fun p => p.2))) :=
  c1_grouping_by_symbol genW cfgW (runProg progAlias).calls 0 (by decide)

/-- C1 counterexample: in the aliasing program two bindings refer to the
same router instance yet the scanner produces two Routers, and in the
reassignment program one binding refers to two distinct instances yet
the scanner produces one Router; aggregation follows the variable
symbol, not the routing-object instance. -/
theorem c1_counterexample :
    (runProg progAlias).insts = [0, 0]
    ∧ (documentSourceFile (runProg progAlias).calls sdEmpty genW cfgW).routers.length = 2
    ∧ (runProg progReassign).insts = [0, 1]
    ∧ (documentSourceFile (runProg progReassign).calls sdEmpty genW cfgW).routers.length = 1 :=
  ⟨rfl, rfl, rfl, rfl⟩

/-- On a router symbol documentation with at most one truthy-named JSDoc
tag, parseRouterDoc does not throw and builds the Router. -/
theorem parseRouterDoc_ok_of_le_one (sd : RouterSymDoc) (routes : List Documentation.Group)
    (h : (sd.tags.filter (fun t => t.1 != "")).length ≤ 1) :
    parseRouterDoc sd routes = .ok (mkRouter sd routes) := by
  unfold parseRouterDoc
  rw [if_neg (by omega)]

/-- C6 (amended): more than one route tag on a binding is a fatal error
for the whole emission loop, not for that binding alone: the loop stops
at the first such binding, the bindings encountered earlier having been
emitted and the failing binding together with every later binding not
being emitted at all. -/
theorem c6_route_tag_fatal_scope (symDocs : Nat → RouterSymDoc)
    (pre suf : List (Nat × List Documentation.Block)) (s : Nat)
    (blocks : List Documentation.Block)
    (hpre : ∀ e ∈ pre, ((symDocs e.1).tags.filter (fun t => t.1 != "")).length ≤ 1)
    (hs : ((symDocs s).tags.filter (fun t => t.1 != "")).length > 1) :
    emitRouters symDocs (pre ++ (s, blocks) :: suf)
      = (pre.map (fun e => mkRouter (symDocs e.1) (groupByRoute e.2)),
         some "Too many @route tags") := by
  induction pre with
  | nil =>
    simp only [List.nil_append, emitRouters]
    unfold parseRouterDoc
    rw [if_pos hs]
    rfl
  | cons e pre ih =>
    obtain ⟨k, bs⟩ := e
    have he := hpre (k, bs) (List.mem_cons_self _ _)
    have hpre2 : ∀ x ∈ pre, ((symDocs x.1).tags.filter (fun t => t.1 != "")).length ≤ 1 :=
      fun x hm => hpre x (List.mem_cons_of_mem _ hm)
    simp only [List.cons_append, emitRouters]
    rw [parseRouterDoc_ok_of_le_one _ _ he]
    simp [ih hpre2]

/-- Witness for the amended C6: a healthy binding before the failing one
is emitted, the failing one aborts the loop. -/
theorem c6_route_tag_fatal_witness :
    emitRouters sdTwoTags ([(1, [plainBlock "/b" []])] ++ (0, [plainBlock "/a" []]) :: [])
      = ([mkRouter (sdTwoTags 1) (groupByRoute [plainBlock "/b" []])],
         some "Too many @route tags") :=
  c6_route_tag_fatal_scope sdTwoTags [(1, [plainBlock "/b" []])] [] 0 [plainBlock "/a" []]
    (by decide) (by decide)

/-- C6 counterexample: symbol zero carries two route tags and symbol one
is healthy; the claim predicts the healthy binding is still emitted, but
the pass aborts with the fatal error and emits no router at all. -/
theorem c6_counterexample :
    (documentSourceFile [plainCall 0 "/a", plainCall 1 "/b"] sdTwoTags genW cfgW).routers = []
    ∧ (documentSourceFile [plainCall 0 "/a", plainCall 1 "/b"] sdTwoTags genW cfgW).fatal
      = some "Too many @route tags" :=
  ⟨rfl, rfl⟩

/-- A write whose first character is not a newline is no path heading. -/
theorem iphw_false_of_head (w : String) (c : Char) (hd : w.data.head? = some c)
    (hc : ('\n' == c) = false) : isPathHeadingWrite w = false := by
  unfold isPathHeadingWrite
  cases hw : w.data with
  | nil => rw [hw] at hd; simp at hd
  | cons a rest =>
    rw [hw] at hd
    simp only [List.head?_cons, Option.some.injEq] at hd
    subst hd
    simp [List.isPrefixOf, hc]

/-- A write whose second character is not a hash mark is no path
heading. -/
theorem iphw_false_of_take2 (w : String) (c : Char) (hd : w.data.take 2 = ['\n', c])
    (hc : ('#' == c) = false) : isPathHeadingWrite w = false := by
  unfold isPathHeadingWrite
  have hsplit := List.take_append_drop 2 w.data
  rw [hd] at hsplit
  rw [← hsplit]
  simp [List.isPrefixOf, hc]

/-- A write whose fourth character is not a space is no path heading. -/
theorem iphw_false_of_take4 (w : String) (c : Char) (hd : w.data.take 4 = ['\n', '#', '#', c])
    (hc : (' ' == c) = false) : isPathHeadingWrite w = false := by
  unfold isPathHeadingWrite
  have hsplit := List.take_append_drop 4 w.data
  rw [hd] at hsplit
  rw [← hsplit]
  simp [List.isPrefixOf, hc]

/-- A write starting with newline, two hash marks and a space is a path
heading. -/
theorem iphw_true_of_take4 (w : String) (hd : w.data.take 4 = ['\n', '#', '#', ' ']) :
    isPathHeadingWrite w = true := by
  unfold isPathHeadingWrite
  have hsplit := List.take_append_drop 4 w.data
  rw [hd] at hsplit
  rw [← hsplit, List.isPrefixOf_iff_prefix]
  exact List.prefix_append _ _

/-- Splitting never yields an empty chunk list. -/
theorem splitChar_ne_nil (sep : Char) (l : List Char) : splitChar sep l ≠ [] := by
  cases l with
  | nil => simp [splitChar]
  | cons c rest =>
    unfold splitChar
    split
    · simp
    · split <;> simp

/-- An indented body always starts with the twelve-space indent. -/
theorem indentBody_head (s : String) : ∃ r : String, indentBody s = "            " ++ r := by
  unfold indentBody
  cases hl : splitChar '\n' s.data with
  | nil => exact absurd hl (splitChar_ne_nil '\n' s.data)
  | cons l ls =>
    cases ls with
    | nil => exact ⟨⟨l⟩, rfl⟩
    | cons l2 ls2 =>
      refine ⟨(⟨l⟩ : String) ++ "\n" ++ indentLinesGo (l2 :: ls2), ?_⟩
      show "            " ++ (⟨l⟩ : String) ++ "\n" ++ indentLinesGo (l2 :: ls2)
        = "            " ++ ((⟨l⟩ : String) ++ "\n" ++ indentLinesGo (l2 :: ls2))
      simp [String.append_assoc]

/-- The second write of a body or response body section (the newline
followed by the indented content) is no path heading. -/
theorem iphw_false_indented (x : String) (tail : String) :
    isPathHeadingWrite ("\n" ++ indentBody x ++ tail) = false := by
  obtain ⟨r, hr⟩ := indentBody_head x
  rw [hr]
  refine iphw_false_of_take2 _ ' ' ?_ (by decide)
  rfl

/-- No write of a parameter line is a path heading. -/
theorem emitParam_no_heading (p : Documentation.Param) :
    ∀ w ∈ emitParam p, isPathHeadingWrite w = false := by
  intro w hw
  unfold emitParam at hw
  simp only [List.mem_singleton] at hw
  subst hw
  exact iphw_false_of_head _ ' ' rfl (by decide)

/-- No write of a request body section is a path heading. -/
theorem emitBody_no_heading (bb : Documentation.RequestBody) :
    ∀ w ∈ emitBody bb, isPathHeadingWrite w = false := by
  intro w hw
  unfold emitBody at hw
  simp only [List.mem_cons, List.mem_singleton, List.not_mem_nil, or_false] at hw
  rcases hw with hw | hw
  · subst hw
    exact iphw_false_of_take2 _ '+' rfl (by decide)
  · subst hw
    exact iphw_false_indented _ _

/-- No write of a response section is a path heading. -/
theorem emitResponse_no_heading (r : Documentation.Response) :
    ∀ w ∈ emitResponse r, isPathHeadingWrite w = false := by
  intro w hw
  unfold emitResponse at hw
  simp only [List.mem_append, List.mem_singleton] at hw
  rcases hw with ((((hw | hw) | hw) | hw) | hw)
  · subst hw
    exact iphw_false_of_take2 _ '+' rfl (by decide)
  · split at hw
    · split at hw
      · rw [List.mem_singleton] at hw
        subst hw
        exact iphw_false_of_head _ ' ' rfl (by decide)
      · simp at hw
    · simp at hw
  · subst hw
    decide
  · split at hw
    · split at hw
      · simp only [List.mem_cons, List.not_mem_nil, or_false] at hw
        rcases hw with hw | hw
        · subst hw; decide
        · subst hw
          exact iphw_false_indented _ _
      · simp at hw
    · simp at hw
  · split at hw
    · simp only [List.mem_cons, List.not_mem_nil, or_false] at hw
      rcases hw with hw | hw
      · subst hw; decide
      · subst hw
        exact iphw_false_indented _ _
    · simp at hw

/-- Filtering the writes of one route for path headings leaves exactly
the one path heading the route starts with. -/
theorem emitRoute_filter_heading (b : Documentation.Block) (lp : String)
    (hdesc : isPathHeadingWrite (b.description ++ "\n") = false) :
    (emitRoute b lp).filter isPathHeadingWrite
      = ["\n## <Unnamed group> [" ++ routeUrl b lp ++ "]\n"] := by
  have h1 : isPathHeadingWrite ("\n## <Unnamed group> [" ++ routeUrl b lp ++ "]\n") = true :=
    iphw_true_of_take4 _ rfl
  have h2 : isPathHeadingWrite
      ("\n### " ++ b.title ++ " [" ++ asciiUpper b.method ++ "]\n") = false :=
    iphw_false_of_take4 _ '#' rfl (by decide)
  have hP : (if 0 < b.params.length
      then "\n+ Parameters\n" :: b.params.flatMap emitParam else []).filter
        isPathHeadingWrite = [] := by
    split
    · rw [List.filter_eq_nil_iff]
      intro w hw
      rcases List.mem_cons.1 hw with hw | hw
      · subst hw; decide
      · obtain ⟨p, _, hwp⟩ := List.mem_flatMap.1 hw
        simp [emitParam_no_heading p w hwp]
    · rfl
  have hB : (match b.body with
      | some bb => emitBody bb
      | none => []).filter isPathHeadingWrite = [] := by
    rcases b.body with _ | bb
    · rfl
    · rw [List.filter_eq_nil_iff]
      intro w hw
      simp [emitBody_no_heading bb w hw]
  have hR : (b.responses.flatMap emitResponse).filter isPathHeadingWrite = [] := by
    rw [List.filter_eq_nil_iff]
    intro w hw
    obtain ⟨r, _, hwr⟩ := List.mem_flatMap.1 hw
    simp [emitResponse_no_heading r w hwr]
  unfold emitRoute
  simp only [List.filter_append, List.filter_cons, h1, h2, hdesc, hP, hB, hR]
  simp

/-- C8 (amended): the emitter writes one path heading per Block, not per
Group: for a group of n blocks exactly n path headings are written, and
each route starts with its own path heading (built from that block path
and that block own query parameters, in block-local order) immediately
followed by that block method heading. -/
theorem c8_heading_per_block (g : Documentation.Group) (lp : String)
    (hdesc : ∀ b ∈ g.methods, isPathHeadingWrite (b.description ++ "\n") = false) :
    countPathHeadings (emitGroup g lp) = g.methods.length
    ∧ ∀ b ∈ g.methods,
        (emitRoute b lp).take 2
          = ["\n## <Unnamed group> [" ++ routeUrl b lp ++ "]\n",
             "\n### " ++ b.title ++ " [" ++ asciiUpper b.method ++ "]\n"] := by
  constructor
  · have haux : ∀ ms : List Documentation.Block,
        (∀ b ∈ ms, isPathHeadingWrite (b.description ++ "\n") = false) →
        ((ms.flatMap (fun r => emitRoute r lp)).filter isPathHeadingWrite).length
          = ms.length := by
      intro ms
      induction ms with
      | nil => intro _; rfl
      | cons b ms ih =>
        intro h
        have hb := h b (List.mem_cons_self b ms)
        have hms : ∀ x ∈ ms, isPathHeadingWrite (x.description ++ "\n") = false :=
          fun x hx => h x (List.mem_cons_of_mem b hx)
        simp [List.flatMap_cons, List.filter_append, emitRoute_filter_heading b lp hb,
          ih hms]
    exact haux g.methods hdesc
  · intro b _
    rfl

/-- Witness for the amended C8: a one-block group with one query
parameter produces exactly one path heading. -/
theorem c8_heading_per_block_witness :
    countPathHeadings (emitGroup groupOne "/") = groupOne.methods.length :=
  (c8_heading_per_block groupOne "/" (by decide)).1

/-- C8 counterexample: a group holding two blocks of the same path gets
two path headings, not the single per-group heading the claim
describes. -/
theorem c8_counterexample :
    countPathHeadings (emitGroup groupTwo "/") = 2 ∧ groupTwo.methods.length = 2 :=
  ⟨rfl, rfl⟩

end KoaDoc
